import Mathlib

/-!
Shallow embedding of the metrics-aggregation core of the
`gitlab-automation-suite` repository (files `app/main/logic.py` and
`app/main/services.py`), together with theorems settling the claims about
its specification.

Modelling conventions:
* Python strings are Lean `String`s; character-level operations
  (lowercasing, substring search, splitting, stripping) are implemented
  over `List Char` so that they evaluate inside the kernel.
* Timestamps are integers (epoch seconds); calendar dates are integers
  (days since 1970-01-01, which was a Thursday); float arithmetic
  (ratios, averages) is modelled with `ℚ`.
* Python dicts are association lists with insert-or-replace semantics
  that keep the position of the first insertion, mirroring dict ordering.
* The GitLab service is an external collaborator; each report receives
  either a pure fetch function or the already-fetched response.
-/

namespace GLA

/-! ## Character-list string helpers -/

/-- Whether `pat` occurs at the start of `s` (character lists). -/
def leadsWith : List Char → List Char → Bool
  | [], _ => true
  | _ :: _, [] => false
  | p :: ps, c :: cs => p == c && leadsWith ps cs

/-- Whether `pat` occurs anywhere inside `s`; models Python `pat in s`. -/
def occursIn (pat : List Char) : List Char → Bool
  | [] => leadsWith pat []
  | c :: cs => leadsWith pat (c :: cs) || occursIn pat cs

/-- Lowercase a string into a character list; models Python `str.lower()`. -/
def lowerStr (s : String) : List Char := s.toList.map Char.toLower

/-- Substring test on strings; models Python `kw in content`. -/
def strHas (content : List Char) (kw : String) : Bool := occursIn kw.toList content

/-- Split a character list on commas; models Python `str.split(',')`. -/
def splitComma (s : List Char) : List (List Char) :=
  s.foldr
    (fun c acc =>
      match acc with
      | [] => [[c]]
      | cur :: rest => if c = ',' then [] :: cur :: rest else (c :: cur) :: rest)
    [[]]

/-- Strip leading and trailing whitespace; models Python `str.strip()`. -/
def stripWs (s : List Char) : List Char :=
  ((s.dropWhile Char.isWhitespace).reverse.dropWhile Char.isWhitespace).reverse

/-! ## Data model

Immutable snapshots of the GitLab entities consumed by the aggregator
(spec §3); only the fields the aggregation core reads are modelled. -/

/-- An issue snapshot as supplied by the Issue Source. -/
structure Issue where
  id : Nat
  iid : Nat
  projectId : Nat
  title : String
  description : Option String
  labels : List String
  state : String
  createdAt : Option Int
  closedAt : Option Int
  milestoneId : Option Nat
  deriving Repr, DecidableEq

/-- A label change event on an issue (`system note` stream). -/
structure LabelEvent where
  label : Option String
  action : String
  createdAt : Int
  deriving Repr, DecidableEq

/-- A milestone assignment event on an issue. -/
structure MilestoneEvent where
  action : String
  milestoneId : Option Nat
  createdAt : Int
  deriving Repr, DecidableEq

/-- A milestone snapshot. -/
structure Milestone where
  id : Nat
  title : String
  dueDate : Option Int
  startDate : Option String
  dueDateStr : Option String
  deriving Repr, DecidableEq

/-! ## Label classifier (`AutomationLogic.suggest_labels_scoped`) -/

/-- The per-scope suggestions returned by the classifier: one optional
suggestion for each of the three scopes (the Python dict has at most the
three keys `type`, `workflow`, `priority`). -/
structure ScopedSuggestions where
  type : Option String
  workflow : Option String
  priority : Option String
  deriving Repr, DecidableEq

/-- Whether any existing label starts with the given scope marker;
models `any(l.startswith(scope) for l in existing_labels)`. -/
def hasScope (existing : List String) (scope : String) : Bool :=
  existing.any (fun l => leadsWith scope.toList l.toList)

/-- The lowercased `"title description"` text the keyword rules run on;
models `f"{issue.title.lower()} {issue.description.lower() if ... else ''}"`. -/
def classifierContent (issue : Issue) : List Char :=
  lowerStr issue.title ++ [' '] ++
    (match issue.description with
     | some d => lowerStr d
     | none => [])

/-- The `type` scope's if/elif keyword chain (first match wins). -/
def classifyType (content : List Char) : String :=
  if ["bug", "error", "fix", "issue", "problem", "failure"].any (strHas content) then
    "type::bug"
  else if ["feature", "implement", "add new", "create"].any (strHas content) then
    "type::new-feature"
  else if ["enhance", "improve", "update", "refine"].any (strHas content) then
    "type::enhancement"
  else "type::categorisation"

/-- The `workflow` scope's if/elif keyword chain (first match wins). -/
def classifyWorkflow (content : List Char) : String :=
  if strHas content "blocked" || strHas content "waiting for" then "workflow::blocked"
  else if strHas content "review" then "workflow::review"
  else if strHas content "qa" || strHas content "test" then "workflow::qa"
  else "workflow::triage"

/-- The `priority` scope's if/elif keyword chain (first match wins). -/
def classifyPriority (content : List Char) : String :=
  if ["critical", "urgent", "blocker", "asap"].any (strHas content) then "priority::1"
  else if ["low priority", "cosmetic"].any (strHas content) then "priority::3"
  else "priority::2"

/-- Embedding of `AutomationLogic.suggest_labels_scoped`: keyword rules,
first match wins within each scope, over the lowercased concatenation of
title and description; a scope already present yields no suggestion. -/
def suggest_labels_scoped (issue : Issue) (existing : List String) : ScopedSuggestions :=
  let content := classifierContent issue
  { type :=
      if hasScope existing "type::" then none else some (classifyType content)
    workflow :=
      if hasScope existing "workflow::" then none else some (classifyWorkflow content)
    priority :=
      if hasScope existing "priority::" then none else some (classifyPriority content) }

/-- Convenience constructor for classifier examples. -/
def mkIssueTitled (t : String) : Issue :=
  { id := 1, iid := 1, projectId := 1, title := t, description := none,
    labels := [], state := "opened", createdAt := none, closedAt := none,
    milestoneId := none }

/-! ## Association lists modelling Python dicts (string keys) -/

/-- Lookup in an association list; models `d.get(k)` / `k in d`. -/
def lookupA : List (String × Int) → String → Option Int
  | [], _ => none
  | p :: ps, k => if p.1 == k then some p.2 else lookupA ps k

/-- Insert-or-replace; models `d[k] = v` (first occurrence replaced in
place, new keys appended, mirroring dict insertion order). -/
def upsertA : List (String × Int) → String → Int → List (String × Int)
  | [], k, v => [(k, v)]
  | p :: ps, k, v => if p.1 == k then (k, v) :: ps else p :: upsertA ps k v

/-- Remove a key; models `d.pop(k)`. -/
def eraseA : List (String × Int) → String → List (String × Int)
  | [], _ => []
  | p :: ps, k => if p.1 == k then ps else p :: eraseA ps k

/-- Keep the entries whose key satisfies `q`. -/
def keyFilter (q : String → Bool) (m : List (String × Int)) : List (String × Int) :=
  m.filter (fun p => q p.1)

/-! ## Time-in-status replay
(`ReportGenerator.generate_time_in_status_report`, event loop) -/

/-- One row of `time_entries`: interval end time, stage, duration (s). -/
structure TimeEntry where
  date : Int
  stage : String
  duration : Int
  deriving Repr, DecidableEq

/-- Replay state: `active_labels` (open intervals keyed by label name),
`issue_stage_durations` (defaulting to the zero initialisation), and the
accumulated `time_entries`. -/
structure ReplayState where
  active : List (String × Int)
  durations : List (String × Int)
  entries : List TimeEntry
  deriving Repr, DecidableEq

/-- Seconds attributed so far to a stage (zero-initialised dict). -/
def durOf (st : ReplayState) (stage : String) : Int :=
  (lookupA st.durations stage).getD 0

/-- Embedding of one iteration of the event loop: skip events without a
label or whose label maps to no stage; `add` opens (or resets) the
label's interval; `remove` with an open interval closes it and charges
the duration to the label's stage; any other action is ignored. -/
def stepEvent (smap : String → Option String) (st : ReplayState) (e : LabelEvent) :
    ReplayState :=
  match e.label with
  | none => st
  | some l =>
    match smap l with
    | none => st
    | some stage =>
      if e.action = "add" then { st with active := upsertA st.active l e.createdAt }
      else if e.action = "remove" then
        match lookupA st.active l with
        | none => st
        | some t0 =>
          { active := eraseA st.active l,
            durations := upsertA st.durations stage (durOf st stage + (e.createdAt - t0)),
            entries := st.entries ++ [⟨e.createdAt, stage, e.createdAt - t0⟩] }
      else st

/-- Replay a (timestamp-sorted) event list from the empty state. -/
def replayEvents (smap : String → Option String) (es : List LabelEvent) : ReplayState :=
  es.foldl (stepEvent smap) ⟨[], [], []⟩

/-- The stage an event is charged to, when any. -/
def eventStage (smap : String → Option String) (e : LabelEvent) : Option String :=
  match e.label with
  | none => none
  | some l => smap l

/-- The subsequence of events charged to stage `s`. -/
def sFilter (smap : String → Option String) (s : String) (es : List LabelEvent) :
    List LabelEvent :=
  es.filter (fun e => eventStage smap e == some s)

/-- Projection of the replay state onto a single stage `s`: the open
intervals of labels mapped to `s`, and the seconds charged to `s`. -/
def projS (smap : String → Option String) (s : String) (st : ReplayState) :
    List (String × Int) × Int :=
  (keyFilter (fun k => smap k == some s) st.active, durOf st s)

/-- The replay step restricted to a single stage's projected state. -/
def projStep (st : List (String × Int) × Int) (e : LabelEvent) :
    List (String × Int) × Int :=
  match e.label with
  | none => st
  | some l =>
    if e.action = "add" then (upsertA st.1 l e.createdAt, st.2)
    else if e.action = "remove" then
      match lookupA st.1 l with
      | none => st
      | some t0 => (eraseA st.1 l, st.2 + (e.createdAt - t0))
    else st

/-- An `add` event for tests and witnesses. -/
def addE (l : String) (t : Int) : LabelEvent := ⟨some l, "add", t⟩

/-- A `remove` event for tests and witnesses. -/
def removeE (l : String) (t : Int) : LabelEvent := ⟨some l, "remove", t⟩

/-! ## OR-label fetch and escape metrics
(`ReportGenerator._fetch_issues_with_or_labels`,
`ReportGenerator._calculate_escape_metrics`) -/

/-- The parsed label list:
`[label.strip() for label in labels_str.split(',') if label.strip()]`. -/
def parseLabels (labelsStr : String) : List (List Char) :=
  ((splitComma labelsStr.toList).map stripWs).filter (fun l => l ≠ [])

/-- Insert-or-replace into the issue dict keyed by id; models
`all_issues[issue.id] = issue`. -/
def upsertI : List (Nat × Issue) → Nat → Issue → List (Nat × Issue)
  | [], k, v => [(k, v)]
  | p :: ps, k, v => if p.1 == k then (k, v) :: ps else p :: upsertI ps k v

/-- One dict insertion for an issue. -/
def insIssue (d : List (Nat × Issue)) (issue : Issue) : List (Nat × Issue) :=
  upsertI d issue.id issue

/-- The keys of the issue dict, in insertion order. -/
def keysOf (d : List (Nat × Issue)) : List Nat := d.map (fun p => p.1)

/-- Embedding of `_fetch_issues_with_or_labels`: one query per parsed
label (`fetch` closes over the shared base params), merged into a dict
keyed by issue id, returned as the dict's values. -/
def fetch_issues_with_or_labels (fetch : List Char → List Issue)
    (labelsStr : String) : List Issue :=
  let dict :=
    (parseLabels labelsStr).foldl
      (fun d lbl => (fetch lbl).foldl insIssue d) []
  dict.map (fun p => p.2)

/-- An issue fixture with a chosen id. -/
def mkIssueId (n : Nat) : Issue := { mkIssueTitled "x" with id := n }

/-- A concrete three-issue snapshot used by closed witnesses: one QA
issue, one prod issue, three created in total. -/
def c1Fetch : Option (List Char) → List Issue
  | none => [mkIssueId 1, mkIssueId 2, mkIssueId 3]
  | some l => if l = "qa".toList then [mkIssueId 1] else [mkIssueId 2]

/-- The metrics dict returned by `_calculate_escape_metrics`. -/
structure EscapeMetrics where
  total_qa_bugs : Nat
  total_prod_bugs : Nat
  total_tickets : Int
  qa_escape_ratio : ℚ
  dev_escape_rate : ℚ
  deriving Repr, DecidableEq

/-- Embedding of `_calculate_escape_metrics`: `fetch none` is the
unfiltered query over the shared created-window params and `fetch (some
lbl)` the same query filtered by one label. -/
def calculate_escape_metrics (fetch : Option (List Char) → List Issue)
    (qaLabels prodLabels : String) : EscapeMetrics :=
  let qaIssues := fetch_issues_with_or_labels (fun l => fetch (some l)) qaLabels
  let prodIssues := fetch_issues_with_or_labels (fun l => fetch (some l)) prodLabels
  let totalIssues := fetch none
  let totalQa := qaIssues.length
  let totalProd := prodIssues.length
  let totalTickets : Int := (totalIssues.length : Int) - (totalQa : Int)
  { total_qa_bugs := totalQa
    total_prod_bugs := totalProd
    total_tickets := totalTickets
    qa_escape_ratio :=
      if 0 < totalQa then ((totalProd : ℚ) / (totalQa : ℚ)) * 100 else 0
    dev_escape_rate :=
      if 0 < totalTickets then ((totalQa : ℚ) / (totalTickets : ℚ)) * 100 else 0 }

/-! ## Defect trend windowing (`generate_defect_trend_report`) -/

/-- One point of the defect-escape trend chart. Calendar months are
absolute month indices (`year*12 + (month-1)`), which makes
`relativedelta(months=i)` on a day-1 date exact index subtraction;
`labelMonth` is the index whose `"%Y-%m"` rendering labels the point. -/
structure TrendPoint where
  labelMonth : Int
  windowStart : Int
  windowEnd : Int
  metrics : EscapeMetrics
  deriving Repr, DecidableEq

/-- The loop indices of `range(int(months), 0, -1)`: `[months, ..., 1]`. -/
def countdown : Nat → List Nat
  | 0 => []
  | n + 1 => (n + 1) :: countdown n

/-- Embedding of `generate_defect_trend_report`: for `i` from `months`
down to `1`, window `[currentMonth - i, currentMonth - (i-1))`, metrics
per window (`metricsFor` abstracts `_calculate_escape_metrics` over the
formatted window dates), label = window start. -/
def generate_defect_trend_report (metricsFor : Int → Int → EscapeMetrics)
    (currentMonth : Int) (months : Nat) : List TrendPoint :=
  (countdown months).map (fun (i : Nat) =>
    let startOfMonth := currentMonth - (i : Int)
    let endOfMonth := currentMonth - ((i : Int) - 1)
    { labelMonth := startOfMonth, windowStart := startOfMonth,
      windowEnd := endOfMonth, metrics := metricsFor startOfMonth endOfMonth })

/-! ## Triage-to-milestone lag
(`generate_triage_to_milestone_report`, per-issue loop) -/

/-- Lookup a milestone by id in `milestone_map = {m.id: m}`. -/
def lookupM : List (Nat × Milestone) → Nat → Option Milestone
  | [], _ => none
  | p :: ps, k => if p.1 == k then some p.2 else lookupM ps k

/-- `label.split("::", 1)[1]` of the first `type::` label, else `"NA"`. -/
def issueTypeOf (labels : List String) : String :=
  match labels.find? (fun l => leadsWith "type::".toList l.toList) with
  | some l => l.drop 6
  | none => "NA"

/-- The timestamp order used for `sorted(..., key=lambda e: e.created_at)`. -/
def eventLE (a b : MilestoneEvent) : Prop := a.createdAt ≤ b.createdAt

instance : DecidableRel eventLE := fun a b => Int.decLe _ _

instance : IsTotal MilestoneEvent eventLE := ⟨fun a b => Int.le_total _ _⟩

instance : IsTrans MilestoneEvent eventLE := ⟨fun _ _ _ => Int.le_trans⟩

/-- Python's stable sort by `created_at`. -/
def sortByTime (es : List MilestoneEvent) : List MilestoneEvent :=
  es.insertionSort eventLE

/-- The sorted `add` events that assign the issue to this milestone:
`e.action == 'add' and e.milestone and e.milestone['id'] == milestone.id`. -/
def addEventsFor (events : List MilestoneEvent) (m : Milestone) : List MilestoneEvent :=
  sortByTime (events.filter
    (fun e => e.action == "add" && e.milestoneId == some m.id))

/-- One row of `detailed_lag_data`. -/
structure LagRow where
  projectId : Nat
  issue_iid : Nat
  issue_type : String
  milestone_due_date : Int
  milestone_assigned_date : Int
  lag_days : Int
  deriving Repr, DecidableEq

/-- One iteration of the per-issue loop of
`generate_triage_to_milestone_report` (lines building
`detailed_lag_data`): skip issues without a mapped milestone, take the
earliest `add` event for this milestone, compute
`lag = (due - assignment).days` (floor days) and keep only `lag >= 0`. A
milestone without a due date parses to `NaT`, for which `lag >= 0` is
false, so it yields no row either. -/
def lagRowForIssue (mmap : List (Nat × Milestone))
    (events : Issue → List MilestoneEvent) (issue : Issue) : Option LagRow :=
  match issue.milestoneId with
  | none => none
  | some mid =>
    match lookupM mmap mid with
    | none => none
    | some m =>
      match m.dueDate with
      | none => none
      | some due =>
        match addEventsFor (events issue) m with
        | [] => none
        | first :: _ =>
          let lag := Int.fdiv (due - first.createdAt) 86400
          if 0 ≤ lag then
            some { projectId := issue.projectId, issue_iid := issue.iid,
                   issue_type := issueTypeOf issue.labels,
                   milestone_due_date := due,
                   milestone_assigned_date := first.createdAt,
                   lag_days := lag }
          else none

/-- The `detailed_lag_data` list over all fetched issues. -/
def generate_triage_to_milestone_rows (mmap : List (Nat × Milestone))
    (events : Issue → List MilestoneEvent) (issues : List Issue) : List LagRow :=
  issues.filterMap (lagRowForIssue mmap events)

/-! ## Issue TAT trend (`generate_issue_tat_trend_report`) -/

/-- The Monday (as an epoch day) that ends the pandas `W-Mon` bin
containing a timestamp: the first Monday on or after its calendar day
(epoch day 4, 1970-01-05, was a Monday; `resample('W-Mon')` bins run
Tuesday..Monday and are labeled by the closing Monday). -/
def weekBinOf (ts : Int) : Int :=
  let d := Int.fdiv ts 86400
  d + Int.emod (4 - d) 7

/-- The Monday starting the ISO (Monday-anchored) week of a timestamp:
the last Monday on or before its calendar day. Used only by the
claim-side definition below. -/
def isoWeekStart (ts : Int) : Int :=
  let d := Int.fdiv ts 86400
  d - Int.emod (d - 4) 7

/-- Banker's rounding to two decimals, the idealised-rational reading of
`Series.round(2)`. -/
def round2 (q : ℚ) : ℚ :=
  let x := q * 100
  let f : Int := Int.floor x
  let frac := x - (f : ℚ)
  let r : Int :=
    if frac < 1 / 2 then f
    else if 1 / 2 < frac then f + 1
    else if f % 2 = 0 then f else f + 1
  (r : ℚ) / 100

/-- Insert a bin into an ascending duplicate-free bin list. -/
def insertBin (x : Int) : List Int → List Int
  | [] => [x]
  | y :: ys =>
    if x < y then x :: y :: ys
    else if x = y then y :: ys
    else y :: insertBin x ys

/-- The distinct bins in ascending order (a resampled series' index). -/
def sortedBins (xs : List Int) : List Int := xs.foldr insertBin []

/-- The per-issue rows `{'created_at': ..., 'tat': ...}` of issues with
both timestamps present; `tat` in days. -/
def tatRecords (issues : List Issue) : List (Int × ℚ) :=
  issues.filterMap (fun i =>
    match i.createdAt, i.closedAt with
    | some c, some cl => some (c, (((cl - c : Int)) : ℚ) / 86400)
    | _, _ => none)

/-- Mean TAT of the records in bin `b`. -/
def binMean (recs : List (Int × ℚ)) (b : Int) : ℚ :=
  let xs := (recs.filter (fun r => weekBinOf r.1 == b)).map (fun r => r.2)
  xs.sum / (xs.length : ℚ)

/-- The post-fetch body of `generate_issue_tat_trend_report`: empty-fetch
and no-valid-dates messages, then the weekly resample (mean per `W-Mon`
bin, NaN weeks dropped, two-decimal rounding, chronological order). -/
def tatTrendBody (issues : List Issue) :
    Option (List (Int × ℚ)) × Option String :=
  if issues = [] then (none, some "No closed issues found in the selected period.")
  else
    let recs := tatRecords issues
    if recs = [] then (none, some "No issues with valid created/closed dates found.")
    else
      let bins := sortedBins (recs.map (fun r => weekBinOf r.1))
      (some (bins.map (fun b => (b, round2 (binMean recs b)))), none)

/-- The GitLab-side filters of the TAT query: `state='closed'`,
`created_after=startTs`, `created_before=endTs` (both on `created_at`). -/
def tatQueryFilter (snapshot : List Issue) (startTs endTs : Int) : List Issue :=
  snapshot.filter (fun i =>
    i.state == "closed" &&
      match i.createdAt with
      | some c => startTs ≤ c && c ≤ endTs
      | none => false)

/-- Embedding of `generate_issue_tat_trend_report` over a snapshot. -/
def generate_issue_tat_trend_report (snapshot : List Issue)
    (startTs endTs : Int) : Option (List (Int × ℚ)) × Option String :=
  tatTrendBody (tatQueryFilter snapshot startTs endTs)

/-- The claim's reading of the TAT trend, following its words for the
refinement comparison: consider exactly the issues closed within the
window, exclude issues missing a timestamp, group per-issue TAT by the
Monday-anchored ISO week of `created_at`, average per week, emit pairs
sorted chronologically. -/
def tatTrendClaim (snapshot : List Issue) (startTs endTs : Int) :
    List (Int × ℚ) :=
  let selected := snapshot.filter (fun i =>
    match i.closedAt with
    | some cl => startTs ≤ cl && cl ≤ endTs
    | none => false)
  let recs := tatRecords selected
  let bins := sortedBins (recs.map (fun r => isoWeekStart r.1))
  bins.map (fun b =>
    (b, (let xs := (recs.filter (fun r => isoWeekStart r.1 == b)).map (fun r => r.2)
         xs.sum / (xs.length : ℚ))))

/-- Counterexample fixture: a closed issue created before the query
window (day -3) and closed inside it (day 10). -/
def c3Issue : Issue := { mkIssueTitled "x" with
  state := "closed"
  createdAt := some (-259200)
  closedAt := some 864000 }

/-! ## Upstream-error surfacing (`GitLabService.get_all_issues` with the
TAT entry point) -/

/-- Embedding of `get_all_issues`' blanket exception handler: an
upstream error is logged and an empty list returned. -/
def get_all_issues (resp : Except String (List Issue)) : List Issue :=
  match resp with
  | .ok issues => issues
  | .error _ => []

/-- The TAT entry point run against a trace of canned service responses:
it consumes exactly one response (no retry) and returns the remaining
trace alongside the report. -/
def runTatTrendReport (trace : List (Except String (List Issue)))
    (startTs endTs : Int) :
    (Option (List (Int × ℚ)) × Option String) ×
      List (Except String (List Issue)) :=
  match trace with
  | [] => (tatTrendBody [], [])
  | resp :: rest =>
    (tatTrendBody (tatQueryFilter (get_all_issues resp) startTs endTs), rest)

/-! ## Detailed milestone burndown
(`generate_detailed_milestone_report`, burndown section) -/

/-- Gregorian leap year test. -/
def isLeapYear (y : Nat) : Bool := y % 4 == 0 && (y % 100 != 0 || y % 400 == 0)

/-- Days in a month (`strptime` rejects out-of-range days). -/
def daysInMonth (y m : Nat) : Nat :=
  if m = 2 then (if isLeapYear y then 29 else 28)
  else if m = 4 ∨ m = 6 ∨ m = 9 ∨ m = 11 then 30
  else 31

/-- Decimal value of an all-digit character list, else `none`. -/
def digitsToNat? (s : List Char) : Option Nat :=
  if s ≠ [] ∧ s.all Char.isDigit then
    some (s.foldl (fun acc c => acc * 10 + (c.toNat - 48)) 0)
  else none

/-- Split a character list on dashes. -/
def splitDash (s : List Char) : List (List Char) :=
  s.foldr
    (fun c acc =>
      match acc with
      | [] => [[c]]
      | cur :: rest => if c = '-' then [] :: cur :: rest else (c :: cur) :: rest)
    [[]]

/-- Modelled `datetime.strptime(s, '%Y-%m-%d')`: three dash-separated
numeric components forming a valid calendar date; `none` models the
`ValueError` the `except` clause catches. -/
def parseDate (s : String) : Option (Nat × Nat × Nat) :=
  match splitDash s.toList with
  | [ys, ms, ds] =>
    match digitsToNat? ys, digitsToNat? ms, digitsToNat? ds with
    | some y, some m, some d =>
      if 1 ≤ y ∧ y ≤ 9999 ∧ 1 ≤ m ∧ m ≤ 12 ∧ 1 ≤ d ∧ d ≤ daysInMonth y m
      then some (y, m, d) else none
    | _, _, _ => none
  | _ => none

/-- Days since 1970-01-01 of a civil date (the standard days-from-civil
computation); date comparison and `pd.date_range` lengths are carried out
on these day numbers. -/
def toEpochDay (y m d : Nat) : Int :=
  let yAdj : Int := if m ≤ 2 then (y : Int) - 1 else (y : Int)
  let era : Int := yAdj.fdiv 400
  let yoe : Int := yAdj - era * 400
  let mp : Int := if 2 < m then (m : Int) - 3 else (m : Int) + 9
  let doy : Int := (153 * mp + 2).fdiv 5 + (d : Int) - 1
  let doe : Int := yoe * 365 + yoe.fdiv 4 - yoe.fdiv 100 + doy
  era * 146097 + doe - 719468

/-- A chart label: either a calendar day (rendered `%Y-%m-%d`) or one of
the literal fallback strings. -/
inductive BurndownLabel where
  | date (d : Int) : BurndownLabel
  | text (s : String) : BurndownLabel
  deriving Repr, DecidableEq

/-- The `burndown_data` dict: labels, ideal series, actual series. -/
structure BurndownData where
  labels : List BurndownLabel
  ideal : List ℚ
  actual : List Int
  deriving Repr, DecidableEq

/-- How many issues closed on epoch day `d`
(`closed_issues_on_date` counting). -/
def closedOnDay (issues : List Issue) (d : Int) : Nat :=
  (issues.filter (fun i =>
    i.state == "closed" &&
      match i.closedAt with
      | some t => Int.fdiv t 86400 == d
      | none => false)).length

/-- The running actual-burn loop: per day, add that day's closed count to
the cumulative total and emit `total - cumulative`. -/
def actualBurn (total : Nat) (closedOn : Int → Nat) : Nat → List Int → List Int
  | _, [] => []
  | cum, d :: ds =>
    let cum2 := cum + closedOn d
    ((total : Int) - (cum2 : Int)) :: actualBurn total closedOn cum2 ds

/-- Embedding of the burndown computation of
`generate_detailed_milestone_report` (the code initialises
`burndown_data` to empty lists; the `due >= start` guard fills it, the
`except` clause replaces it by the `['Start','End']` fallback, and the
missing-date `else` branch by the `['Start','Current']` fallback). -/
def computeBurndown (startStr dueStr : Option String) (issues : List Issue) :
    BurndownData :=
  let total := issues.length
  let closedCount := (issues.filter (fun i => i.state == "closed")).length
  let openCount := total - closedCount
  match startStr, dueStr with
  | some ss, some ds =>
    if ss ≠ "" ∧ ds ≠ "" then
      match parseDate ss, parseDate ds with
      | some (sy, sm, sd), some (dy, dm, dd) =>
        let sDay := toEpochDay sy sm sd
        let dDay := toEpochDay dy dm dd
        if sDay ≤ dDay then
          let totalDays := (dDay - sDay).toNat
          let days := (List.range (totalDays + 1)).map (fun i => sDay + (i : Int))
          let rate : ℚ :=
            if 0 < totalDays then (total : ℚ) / (totalDays : ℚ) else (total : ℚ)
          { labels := days.map BurndownLabel.date
            ideal := (List.range (totalDays + 1)).map
              (fun i => max 0 ((total : ℚ) - (i : ℚ) * rate))
            actual := actualBurn total (closedOnDay issues) 0 days }
        else { labels := [], ideal := [], actual := [] }
      | _, _ =>
        { labels := [BurndownLabel.text "Start", BurndownLabel.text "End"],
          ideal := [(total : ℚ), 0], actual := [(total : Int), (openCount : Int)] }
    else
      { labels := [BurndownLabel.text "Start", BurndownLabel.text "Current"],
        ideal := [(total : ℚ), 0], actual := [(total : Int), (openCount : Int)] }
  | _, _ =>
    { labels := [BurndownLabel.text "Start", BurndownLabel.text "Current"],
      ideal := [(total : ℚ), 0], actual := [(total : Int), (openCount : Int)] }

/-- The `(year, month)` pair rendered as `"%Y-%m"` for a month index. -/
def yearMonthOf (m : Int) : Int × Int := (m.fdiv 12, m.emod 12 + 1)

end GLA

namespace GLA

/-- Lookup after inserting the same key yields the inserted value. -/
theorem lookupA_upsertA_self (m : List (String × Int)) (k : String) (v : Int) :
    lookupA (upsertA m k v) k = some v := by
  induction m with
  | nil => simp [upsertA, lookupA]
  | cons p ps ih =>
    by_cases h : p.1 = k
    · simp [upsertA, lookupA, h]
    · simp [upsertA, lookupA, h, ih]

/-- Lookup at a different key is unchanged by an insert. -/
theorem lookupA_upsertA_ne (m : List (String × Int)) (k k' : String) (v : Int)
    (h : k' ≠ k) : lookupA (upsertA m k v) k' = lookupA m k' := by
  induction m with
  | nil => simp [upsertA, lookupA, Ne.symm h]
  | cons p ps ih =>
    by_cases hp : p.1 = k
    · simp [upsertA, lookupA, hp, Ne.symm h]
    · simp [upsertA, lookupA, hp, ih]

/-- `keyFilter` on the empty list. -/
theorem keyFilter_nil (q : String → Bool) : keyFilter q [] = [] := rfl

/-- `keyFilter` on a cons cell. -/
theorem keyFilter_cons (q : String → Bool) (p : String × Int)
    (ps : List (String × Int)) :
    keyFilter q (p :: ps) = if q p.1 then p :: keyFilter q ps else keyFilter q ps := by
  simp [keyFilter, List.filter_cons]

/-- Inserting a key that satisfies the filter commutes with filtering. -/
theorem keyFilter_upsertA_pos (q : String → Bool) (m : List (String × Int))
    (k : String) (v : Int) (h : q k = true) :
    keyFilter q (upsertA m k v) = upsertA (keyFilter q m) k v := by
  induction m with
  | nil => simp [upsertA, keyFilter_cons, keyFilter_nil, h]
  | cons p ps ih =>
    by_cases hp : p.1 = k
    · simp [upsertA, keyFilter_cons, hp, h]
    · by_cases hq : q p.1 = true
      · simp [upsertA, keyFilter_cons, hp, hq, ih]
      · simp only [Bool.not_eq_true] at hq
        simp [upsertA, keyFilter_cons, hp, hq, ih]

/-- Inserting a key rejected by the filter leaves the filtered list unchanged. -/
theorem keyFilter_upsertA_neg (q : String → Bool) (m : List (String × Int))
    (k : String) (v : Int) (h : q k = false) :
    keyFilter q (upsertA m k v) = keyFilter q m := by
  induction m with
  | nil => simp [upsertA, keyFilter_cons, keyFilter_nil, h]
  | cons p ps ih =>
    by_cases hp : p.1 = k
    · simp [upsertA, keyFilter_cons, hp, h]
    · simp [upsertA, keyFilter_cons, hp, ih]

/-- Lookup of a key kept by the filter is unchanged by filtering. -/
theorem lookupA_keyFilter (q : String → Bool) (m : List (String × Int))
    (k : String) (h : q k = true) :
    lookupA (keyFilter q m) k = lookupA m k := by
  induction m with
  | nil => simp [keyFilter_nil]
  | cons p ps ih =>
    by_cases hp : p.1 = k
    · simp [keyFilter_cons, lookupA, hp, h]
    · by_cases hq : q p.1 = true
      · simp [keyFilter_cons, lookupA, hp, hq, ih]
      · simp only [Bool.not_eq_true] at hq
        simp [keyFilter_cons, lookupA, hp, hq, ih]

/-- Erasing a key kept by the filter commutes with filtering. -/
theorem keyFilter_eraseA_pos (q : String → Bool) (m : List (String × Int))
    (k : String) (h : q k = true) :
    keyFilter q (eraseA m k) = eraseA (keyFilter q m) k := by
  induction m with
  | nil => simp [eraseA, keyFilter_nil]
  | cons p ps ih =>
    by_cases hp : p.1 = k
    · simp [eraseA, keyFilter_cons, hp, h]
    · by_cases hq : q p.1 = true
      · simp [eraseA, keyFilter_cons, hp, hq, ih]
      · simp only [Bool.not_eq_true] at hq
        simp [eraseA, keyFilter_cons, hp, hq, ih]

/-- Erasing a key rejected by the filter leaves the filtered list unchanged. -/
theorem keyFilter_eraseA_neg (q : String → Bool) (m : List (String × Int))
    (k : String) (h : q k = false) :
    keyFilter q (eraseA m k) = keyFilter q m := by
  induction m with
  | nil => simp [eraseA, keyFilter_nil]
  | cons p ps ih =>
    by_cases hp : p.1 = k
    · simp [eraseA, keyFilter_cons, hp, h]
    · simp [eraseA, keyFilter_cons, hp, ih]

/-- An event charged to a different stage (or to none) leaves stage `s`'s
projected state untouched. -/
theorem projS_stepEvent_ne (smap : String → Option String) (s : String)
    (st : ReplayState) (e : LabelEvent) (h : eventStage smap e ≠ some s) :
    projS smap s (stepEvent smap st e) = projS smap s st := by
  obtain ⟨lab, act, t⟩ := e
  cases lab with
  | none => rfl
  | some l =>
    cases hm : smap l with
    | none => simp [stepEvent, hm]
    | some s' =>
      have hs' : s' ≠ s := fun hss => h (by simp [eventStage, hm, hss])
      have hq : (fun k => smap k == some s) l = false := by simp [hm, hs']
      by_cases ha : act = "add"
      · subst ha
        have h1 := keyFilter_upsertA_neg (fun k => smap k == some s) st.active l t hq
        simp [stepEvent, hm, projS, durOf, h1]
      · by_cases hr : act = "remove"
        · subst hr
          cases hl : lookupA st.active l with
          | none => simp [stepEvent, hm, hl, ha]
          | some t0 =>
            have h1 := keyFilter_eraseA_neg (fun k => smap k == some s) st.active l hq
            have h2 := lookupA_upsertA_ne st.durations s' s
              ((lookupA st.durations s').getD 0 + (t - t0)) (Ne.symm hs')
            simp [stepEvent, hm, hl, ha, projS, durOf, h1, h2]
        · simp [stepEvent, hm, ha, hr]

/-- An event charged to stage `s` acts on the projected state as the
projected step. -/
theorem projS_stepEvent_eq (smap : String → Option String) (s : String)
    (st : ReplayState) (e : LabelEvent) (h : eventStage smap e = some s) :
    projS smap s (stepEvent smap st e) = projStep (projS smap s st) e := by
  obtain ⟨lab, act, t⟩ := e
  cases lab with
  | none => simp [eventStage] at h
  | some l =>
    cases hm : smap l with
    | none => simp [eventStage, hm] at h
    | some s' =>
      have hs' : s' = s := by simpa [eventStage, hm] using h
      subst hs'
      have hq : (fun k => smap k == some s') l = true := by simp [hm]
      by_cases ha : act = "add"
      · subst ha
        have h1 := keyFilter_upsertA_pos (fun k => smap k == some s') st.active l t hq
        simp [stepEvent, hm, projS, projStep, durOf, h1]
      · by_cases hr : act = "remove"
        · subst hr
          have hlf := lookupA_keyFilter (fun k => smap k == some s') st.active l hq
          cases hl : lookupA st.active l with
          | none => simp [stepEvent, projStep, projS, hm, hl, ha, hlf]
          | some t0 =>
            have h1 := keyFilter_eraseA_pos (fun k => smap k == some s') st.active l hq
            have h2 := lookupA_upsertA_self st.durations s'
              ((lookupA st.durations s').getD 0 + (t - t0))
            simp [stepEvent, projStep, hm, hl, ha, projS, durOf, h1, h2, hlf]
        · simp [stepEvent, projStep, hm, ha, hr]

/-- The replay, projected onto stage `s`, is the projected fold of the
events charged to `s`. -/
theorem projS_foldl (smap : String → Option String) (s : String)
    (es : List LabelEvent) :
    ∀ st : ReplayState,
      projS smap s (es.foldl (stepEvent smap) st) =
        (sFilter smap s es).foldl projStep (projS smap s st) := by
  induction es with
  | nil => intro st; simp [sFilter]
  | cons e es ih =>
    intro st
    by_cases h : eventStage smap e = some s
    · simp only [List.foldl_cons, sFilter, List.filter_cons, h]
      simp only [sFilter] at ih
      rw [ih, projS_stepEvent_eq _ _ _ _ h]
      simp
    · simp only [List.foldl_cons, sFilter, List.filter_cons]
      have hb : (eventStage smap e == some s) = false := by
        simpa using h
      rw [hb]
      simp only [sFilter] at ih
      rw [ih, projS_stepEvent_ne _ _ _ _ h]
      simp

end GLA

/-- C8: the classifier evaluates its keyword rules first-match-wins per
scope on the lowercased title/description text, emits exactly one
suggestion for each scope not already present among the issue's labels
and none for a scope already represented; "Fix login bug" with no
existing scoped labels yields `type::bug`, `workflow::triage`,
`priority::2`, and an issue already carrying `priority::1` receives no
priority suggestion. -/
theorem GLA.C8_suggest_labels_scoped :
    (∀ t : String,
      GLA.suggest_labels_scoped (GLA.mkIssueTitled t) ["priority::1"] =
        { type := (GLA.suggest_labels_scoped (GLA.mkIssueTitled t) []).type,
          workflow := (GLA.suggest_labels_scoped (GLA.mkIssueTitled t) []).workflow,
          priority := none }) ∧
    (∀ issue : GLA.Issue, ∀ existing : List String,
      (GLA.hasScope existing "type::" = true →
        (GLA.suggest_labels_scoped issue existing).type = none) ∧
      (GLA.hasScope existing "type::" = false →
        (GLA.suggest_labels_scoped issue existing).type.isSome = true) ∧
      (GLA.hasScope existing "workflow::" = true →
        (GLA.suggest_labels_scoped issue existing).workflow = none) ∧
      (GLA.hasScope existing "workflow::" = false →
        (GLA.suggest_labels_scoped issue existing).workflow.isSome = true) ∧
      (GLA.hasScope existing "priority::" = true →
        (GLA.suggest_labels_scoped issue existing).priority = none) ∧
      (GLA.hasScope existing "priority::" = false →
        (GLA.suggest_labels_scoped issue existing).priority.isSome = true)) ∧
    GLA.suggest_labels_scoped (GLA.mkIssueTitled "Fix login bug") [] =
      { type := some "type::bug", workflow := some "workflow::triage",
        priority := some "priority::2" } := by
  refine ⟨?_, ?_, by decide⟩
  · intro t
    have hp : GLA.hasScope ["priority::1"] "priority::" = true := by decide
    have ht : GLA.hasScope ["priority::1"] "type::" = false := by decide
    have hw : GLA.hasScope ["priority::1"] "workflow::" = false := by decide
    have ht0 : GLA.hasScope ([] : List String) "type::" = false := by decide
    have hw0 : GLA.hasScope ([] : List String) "workflow::" = false := by decide
    simp [GLA.suggest_labels_scoped, hp, ht, hw, ht0, hw0]
  · intro issue existing
    refine ⟨?_, ?_, ?_, ?_, ?_, ?_⟩ <;> intro h <;>
      simp [GLA.suggest_labels_scoped, h]

/-- Witness for C8: the hypotheses of the second conjunct are
dischargeable at a concrete issue and label list. -/
theorem GLA.C8_suggest_labels_scoped_witness :
    (GLA.suggest_labels_scoped (GLA.mkIssueTitled "Fix login bug") ["type::bug"]).type
      = none :=
  (GLA.C8_suggest_labels_scoped.2.1 (GLA.mkIssueTitled "Fix login bug")
    ["type::bug"]).1 (by decide)

/-- C2: in the time-in-status replay, when the events charged to stage `s`
(those whose label is mapped to `s`) form `[add(L,t1), remove(L,t2)]`, the
stage receives duration `t2 - t1`; when they form
`[add(L,t1), add(L,t3), remove(L,t4)]`, the second `add` resets the open
interval and the stage receives `t4 - t3`, not `t4 - t1`; and a dangling
`add` that is never removed contributes zero. -/
theorem GLA.C2_time_in_status_replay (smap : String → Option String)
    (s L : String) (t1 t2 t3 t4 : Int) (es : List GLA.LabelEvent) :
    (GLA.sFilter smap s es = [GLA.addE L t1, GLA.removeE L t2] →
      GLA.durOf (GLA.replayEvents smap es) s = t2 - t1) ∧
    (GLA.sFilter smap s es = [GLA.addE L t1, GLA.addE L t3, GLA.removeE L t4] →
      GLA.durOf (GLA.replayEvents smap es) s = t4 - t3) ∧
    (GLA.sFilter smap s es = [GLA.addE L t1] →
      GLA.durOf (GLA.replayEvents smap es) s = 0) := by
  have hbase :
      GLA.projS smap s (⟨[], [], []⟩ : GLA.ReplayState) = ([], 0) := by
    simp [GLA.projS, GLA.keyFilter, GLA.durOf, GLA.lookupA]
  have hkey : ∀ pat : List GLA.LabelEvent, GLA.sFilter smap s es = pat →
      GLA.durOf (GLA.replayEvents smap es) s = (pat.foldl GLA.projStep ([], 0)).2 := by
    intro pat hp
    have h := GLA.projS_foldl smap s es ⟨[], [], []⟩
    rw [hp, hbase] at h
    have hdur : GLA.durOf (GLA.replayEvents smap es) s =
        (GLA.projS smap s (GLA.replayEvents smap es)).2 := rfl
    rw [hdur, GLA.replayEvents, h]
  refine ⟨fun hp => ?_, fun hp => ?_, fun hp => ?_⟩ <;>
    rw [hkey _ hp] <;>
    simp [GLA.projStep, GLA.addE, GLA.removeE, GLA.upsertA, GLA.lookupA, GLA.eraseA]

/-- Witness for C2: a concrete replay whose stage-`s` events follow the
three patterns of the theorem; the reset pattern yields `10 - 7 = 3`. -/
theorem GLA.C2_time_in_status_replay_witness :
    GLA.durOf
      (GLA.replayEvents (fun l => if l = "dev" then some "Dev" else none)
        [GLA.addE "dev" 2, GLA.addE "dev" 7, GLA.removeE "dev" 10]) "Dev" = 3 := by
  have h :=
    (GLA.C2_time_in_status_replay (fun l => if l = "dev" then some "Dev" else none)
      "Dev" "dev" 2 0 7 10
      [GLA.addE "dev" 2, GLA.addE "dev" 7, GLA.removeE "dev" 10]).2.1 (by decide)
  omega

/-- C10: a `remove` event for a stage-mapped label with no open interval
is ignored: the replay state (open intervals, stage durations and the
recorded time entries) is exactly the state before the event. -/
theorem GLA.C10_remove_without_open_ignored (smap : String → Option String)
    (es : List GLA.LabelEvent) (e : GLA.LabelEvent) (l s : String)
    (hlab : e.label = some l) (hact : e.action = "remove")
    (hmap : smap l = some s)
    (hopen : GLA.lookupA (GLA.replayEvents smap es).active l = none) :
    GLA.replayEvents smap (es ++ [e]) = GLA.replayEvents smap es := by
  obtain ⟨lab, act, t⟩ := e
  cases hlab
  cases hact
  simp only [GLA.replayEvents] at hopen ⊢
  rw [List.foldl_append]
  simp [GLA.stepEvent, hmap, hopen]

/-- Witness for C10: removing a mapped label that was never added leaves
the initial (empty) replay state unchanged. -/
theorem GLA.C10_remove_without_open_ignored_witness :
    GLA.replayEvents (fun l => if l = "dev" then some "Dev" else none)
      [GLA.removeE "dev" 5] =
    GLA.replayEvents (fun l => if l = "dev" then some "Dev" else none) [] :=
  GLA.C10_remove_without_open_ignored
    (fun l => if l = "dev" then some "Dev" else none) []
    (GLA.removeE "dev" 5) "dev" "Dev" (by decide) (by decide) (by decide) (by decide)

namespace GLA

/-- A key is in the dict after an insert iff it is the inserted key or
was already there. -/
theorem upsertI_keys_mem (d : List (Nat × Issue)) (k : Nat) (v : Issue) (i : Nat) :
    i ∈ keysOf (upsertI d k v) ↔ i = k ∨ i ∈ keysOf d := by
  induction d with
  | nil => simp [upsertI, keysOf]
  | cons p ps ih =>
    by_cases hp : p.1 = k
    · rw [show upsertI (p :: ps) k v = (k, v) :: ps from by simp [upsertI, hp]]
      rw [show keysOf ((k, v) :: ps) = k :: keysOf ps from rfl]
      rw [show keysOf (p :: ps) = p.1 :: keysOf ps from rfl, hp]
      simp
    · rw [show upsertI (p :: ps) k v = p :: upsertI ps k v from by simp [upsertI, hp]]
      rw [show keysOf (p :: upsertI ps k v) = p.1 :: keysOf (upsertI ps k v) from rfl]
      rw [show keysOf (p :: ps) = p.1 :: keysOf ps from rfl]
      simp only [List.mem_cons, ih]
      tauto

/-- Inserting preserves key distinctness. -/
theorem upsertI_keys_nodup (d : List (Nat × Issue)) (k : Nat) (v : Issue)
    (h : (keysOf d).Nodup) : (keysOf (upsertI d k v)).Nodup := by
  induction d with
  | nil => simp [upsertI, keysOf]
  | cons p ps ih =>
    by_cases hp : p.1 = k
    · rw [show upsertI (p :: ps) k v = (k, v) :: ps from by simp [upsertI, hp]]
      rw [show keysOf ((k, v) :: ps) = k :: keysOf ps from rfl]
      rw [show keysOf (p :: ps) = p.1 :: keysOf ps from rfl, hp] at h
      exact h
    · rw [show keysOf (p :: ps) = p.1 :: keysOf ps from rfl, List.nodup_cons] at h
      rw [show upsertI (p :: ps) k v = p :: upsertI ps k v from by simp [upsertI, hp]]
      rw [show keysOf (p :: upsertI ps k v) = p.1 :: keysOf (upsertI ps k v) from rfl,
        List.nodup_cons]
      refine ⟨fun hc => ?_, ih h.2⟩
      rcases (upsertI_keys_mem ps k v p.1).1 hc with h1 | h1
      · exact hp h1
      · exact h.1 h1

/-- Inserting an issue under its own id preserves the key/value
agreement invariant. -/
theorem upsertI_wf (d : List (Nat × Issue)) (k : Nat) (v : Issue)
    (hv : v.id = k) (h : ∀ p ∈ d, Issue.id p.2 = p.1) :
    ∀ p ∈ upsertI d k v, Issue.id p.2 = p.1 := by
  induction d with
  | nil =>
    intro q hq
    rw [show upsertI [] k v = [(k, v)] from rfl] at hq
    rcases List.mem_singleton.1 hq with rfl
    simpa using hv
  | cons p ps ih =>
    intro q hq
    by_cases hp : p.1 = k
    · rw [show upsertI (p :: ps) k v = (k, v) :: ps from by simp [upsertI, hp]] at hq
      rcases List.mem_cons.1 hq with rfl | hq'
      · simpa using hv
      · exact h _ (List.mem_cons_of_mem _ hq')
    · rw [show upsertI (p :: ps) k v = p :: upsertI ps k v from by simp [upsertI, hp]] at hq
      rcases List.mem_cons.1 hq with rfl | hq'
      · exact h _ (List.mem_cons_self _ _)
      · exact ih (fun r hr => h r (List.mem_cons_of_mem _ hr)) q hq'

/-- Key membership after folding a list of issues into the dict. -/
theorem foldIns_keys_mem (issues : List Issue) :
    ∀ (d : List (Nat × Issue)) (i : Nat),
      i ∈ keysOf (issues.foldl insIssue d) ↔
        i ∈ keysOf d ∨ ∃ iss ∈ issues, Issue.id iss = i := by
  induction issues with
  | nil => simp
  | cons iss rest ih =>
    intro d i
    rw [List.foldl_cons, ih]
    rw [show insIssue d iss = upsertI d iss.id iss from rfl]
    rw [upsertI_keys_mem]
    constructor
    · rintro ((rfl | h) | h)
      · exact Or.inr ⟨iss, List.mem_cons_self _ _, rfl⟩
      · exact Or.inl h
      · rcases h with ⟨a, ha, rfl⟩
        exact Or.inr ⟨a, List.mem_cons_of_mem _ ha, rfl⟩
    · rintro (h | ⟨a, ha, rfl⟩)
      · exact Or.inl (Or.inr h)
      · rcases List.mem_cons.1 ha with rfl | ha'
        · exact Or.inl (Or.inl rfl)
        · exact Or.inr ⟨a, ha', rfl⟩

/-- Folding issues into the dict preserves key distinctness. -/
theorem foldIns_keys_nodup (issues : List Issue) :
    ∀ d : List (Nat × Issue), (keysOf d).Nodup →
      (keysOf (issues.foldl insIssue d)).Nodup := by
  induction issues with
  | nil => intro d h; simpa using h
  | cons iss rest ih =>
    intro d h
    exact ih _ (upsertI_keys_nodup d iss.id iss h)

/-- Folding issues into the dict preserves key/value agreement. -/
theorem foldIns_wf (issues : List Issue) :
    ∀ d : List (Nat × Issue), (∀ p ∈ d, Issue.id p.2 = p.1) →
      ∀ p ∈ issues.foldl insIssue d, Issue.id p.2 = p.1 := by
  induction issues with
  | nil => intro d h; simpa using h
  | cons iss rest ih =>
    intro d h
    exact ih _ (upsertI_wf d iss.id iss rfl h)

/-- Key membership after the per-label outer fold. -/
theorem foldLbl_keys_mem (fetch : List Char → List Issue) (labels : List (List Char)) :
    ∀ (d : List (Nat × Issue)) (i : Nat),
      i ∈ keysOf (labels.foldl (fun d lbl => (fetch lbl).foldl insIssue d) d) ↔
        i ∈ keysOf d ∨ ∃ lbl ∈ labels, ∃ iss ∈ fetch lbl, Issue.id iss = i := by
  induction labels with
  | nil => simp
  | cons lbl rest ih =>
    intro d i
    rw [List.foldl_cons, ih, foldIns_keys_mem]
    constructor
    · rintro ((h | h) | h)
      · exact Or.inl h
      · rcases h with ⟨a, ha, rfl⟩
        exact Or.inr ⟨lbl, List.mem_cons_self _ _, a, ha, rfl⟩
      · rcases h with ⟨l2, hl2, a, ha, rfl⟩
        exact Or.inr ⟨l2, List.mem_cons_of_mem _ hl2, a, ha, rfl⟩
    · rintro (h | ⟨l2, hl2, a, ha, rfl⟩)
      · exact Or.inl (Or.inl h)
      · rcases List.mem_cons.1 hl2 with rfl | hl2'
        · exact Or.inl (Or.inr ⟨a, ha, rfl⟩)
        · exact Or.inr ⟨l2, hl2', a, ha, rfl⟩

/-- The outer fold keeps keys distinct. -/
theorem foldLbl_keys_nodup (fetch : List Char → List Issue)
    (labels : List (List Char)) :
    ∀ d : List (Nat × Issue), (keysOf d).Nodup →
      (keysOf (labels.foldl (fun d lbl => (fetch lbl).foldl insIssue d) d)).Nodup := by
  induction labels with
  | nil => intro d h; simpa using h
  | cons lbl rest ih =>
    intro d h
    exact ih _ (foldIns_keys_nodup (fetch lbl) d h)

/-- The outer fold keeps key/value agreement. -/
theorem foldLbl_wf (fetch : List Char → List Issue) (labels : List (List Char)) :
    ∀ d : List (Nat × Issue), (∀ p ∈ d, Issue.id p.2 = p.1) →
      ∀ p ∈ labels.foldl (fun d lbl => (fetch lbl).foldl insIssue d) d,
        Issue.id p.2 = p.1 := by
  induction labels with
  | nil => intro d h; simpa using h
  | cons lbl rest ih =>
    intro d h
    exact ih _ (foldIns_wf (fetch lbl) d h)

end GLA

/-- C7: the OR-over-labels fetch returns the union of the per-label query
results deduplicated by issue id: the returned ids are pairwise distinct,
and an id occurs in the result exactly when some parsed label's query
returned an issue with that id (so counting the result counts distinct
issue ids of the union). -/
theorem GLA.C7_fetch_issues_with_or_labels (fetch : List Char → List GLA.Issue)
    (labelsStr : String) :
    ((GLA.fetch_issues_with_or_labels fetch labelsStr).map GLA.Issue.id).Nodup ∧
    ∀ i : Nat,
      (∃ issue ∈ GLA.fetch_issues_with_or_labels fetch labelsStr,
        GLA.Issue.id issue = i) ↔
      (∃ lbl ∈ GLA.parseLabels labelsStr, ∃ issue ∈ fetch lbl,
        GLA.Issue.id issue = i) := by
  set labels := GLA.parseLabels labelsStr with hlabels
  set dict := labels.foldl (fun d lbl => (fetch lbl).foldl GLA.insIssue d) [] with hdict
  have hwf : ∀ p ∈ dict, GLA.Issue.id p.2 = p.1 :=
    GLA.foldLbl_wf fetch labels [] (by simp)
  have hres : GLA.fetch_issues_with_or_labels fetch labelsStr =
      dict.map (fun p => p.2) := rfl
  have hids : (GLA.fetch_issues_with_or_labels fetch labelsStr).map GLA.Issue.id =
      GLA.keysOf dict := by
    rw [hres, GLA.keysOf, List.map_map]
    exact List.map_congr_left (fun p hp => hwf p hp)
  constructor
  · rw [hids]
    exact GLA.foldLbl_keys_nodup fetch labels [] (by simp [GLA.keysOf])
  · intro i
    have h1 : (∃ issue ∈ GLA.fetch_issues_with_or_labels fetch labelsStr,
        GLA.Issue.id issue = i) ↔
        i ∈ (GLA.fetch_issues_with_or_labels fetch labelsStr).map GLA.Issue.id := by
      simp
    rw [h1, hids]
    have h2 := GLA.foldLbl_keys_mem fetch labels [] i
    rw [← hdict] at h2
    rw [h2]
    simp [GLA.keysOf]

/-- Witness for C7 (closed instance): with two labels whose queries share
an issue, the merged result's ids are distinct and exactly the union. -/
theorem GLA.C7_fetch_issues_with_or_labels_witness :
    ((GLA.fetch_issues_with_or_labels
      (fun l => if l = "qa".toList then [GLA.mkIssueTitled "a"] else
        [GLA.mkIssueTitled "a", { GLA.mkIssueTitled "b" with id := 2 }])
      "qa, prod").map GLA.Issue.id).Nodup :=
  (GLA.C7_fetch_issues_with_or_labels
    (fun l => if l = "qa".toList then [GLA.mkIssueTitled "a"] else
      [GLA.mkIssueTitled "a", { GLA.mkIssueTitled "b" with id := 2 }])
    "qa, prod").1

/-- C1: the escape-metrics computation returns
`qaEscapeRatio = prodCount / qaCount * 100` when `qaCount > 0` and
exactly `0` when `qaCount = 0`, and
`devEscapeRate = qaCount / netTotal * 100` when `netTotal > 0` and
exactly `0` when `netTotal <= 0`, with
`netTotal = totalCreated - qaCount`; each division happens only under a
positivity guard on its denominator. -/
theorem GLA.C1_calculate_escape_metrics (fetch : Option (List Char) → List GLA.Issue)
    (qaLabels prodLabels : String) :
    (GLA.calculate_escape_metrics fetch qaLabels prodLabels).total_tickets =
      ((fetch none).length : Int) -
        ((GLA.calculate_escape_metrics fetch qaLabels prodLabels).total_qa_bugs : Int) ∧
    ((GLA.calculate_escape_metrics fetch qaLabels prodLabels).total_qa_bugs = 0 →
      (GLA.calculate_escape_metrics fetch qaLabels prodLabels).qa_escape_ratio = 0) ∧
    (0 < (GLA.calculate_escape_metrics fetch qaLabels prodLabels).total_qa_bugs →
      ((GLA.calculate_escape_metrics fetch qaLabels prodLabels).total_qa_bugs : ℚ) ≠ 0 ∧
      (GLA.calculate_escape_metrics fetch qaLabels prodLabels).qa_escape_ratio =
        ((GLA.calculate_escape_metrics fetch qaLabels prodLabels).total_prod_bugs : ℚ) /
          ((GLA.calculate_escape_metrics fetch qaLabels prodLabels).total_qa_bugs : ℚ) *
            100) ∧
    ((GLA.calculate_escape_metrics fetch qaLabels prodLabels).total_tickets ≤ 0 →
      (GLA.calculate_escape_metrics fetch qaLabels prodLabels).dev_escape_rate = 0) ∧
    (0 < (GLA.calculate_escape_metrics fetch qaLabels prodLabels).total_tickets →
      ((GLA.calculate_escape_metrics fetch qaLabels prodLabels).total_tickets : ℚ) ≠ 0 ∧
      (GLA.calculate_escape_metrics fetch qaLabels prodLabels).dev_escape_rate =
        ((GLA.calculate_escape_metrics fetch qaLabels prodLabels).total_qa_bugs : ℚ) /
          ((GLA.calculate_escape_metrics fetch qaLabels prodLabels).total_tickets : ℚ) *
            100) := by
  simp only [GLA.calculate_escape_metrics]
  refine ⟨trivial, ?_, ?_, ?_, ?_⟩
  · intro h
    simp [h]
  · intro h
    constructor
    · exact_mod_cast Nat.pos_iff_ne_zero.1 h
    · simp [h]
  · intro h
    rw [if_neg (by omega)]
  · intro h
    constructor
    · exact_mod_cast ne_of_gt h
    · simp [h]

/-- Witness for C1: a snapshot with one QA issue, one prod issue and
three issues in total; `netTotal = 3 - 1 = 2 > 0` and `qaCount = 1 > 0`,
so both guarded formulas apply and the dev escape rate is `1/2*100`. -/
theorem GLA.C1_calculate_escape_metrics_witness :
    (GLA.calculate_escape_metrics GLA.c1Fetch "qa" "prod").dev_escape_rate = 50 := by
  have h :=
    (GLA.C1_calculate_escape_metrics GLA.c1Fetch "qa" "prod").2.2.2.2 (by decide)
  rw [h.2]
  rw [show (GLA.calculate_escape_metrics GLA.c1Fetch "qa" "prod").total_qa_bugs = 1
    from by decide]
  rw [show (GLA.calculate_escape_metrics GLA.c1Fetch "qa" "prod").total_tickets = 2
    from by decide]
  norm_num

namespace GLA

/-- Closed form of the trend loop: the points, oldest first, indexed by
`k = months - i`. -/
theorem generate_defect_trend_closed (metricsFor : Int → Int → EscapeMetrics)
    (currentMonth : Int) :
    ∀ months : Nat,
      generate_defect_trend_report metricsFor currentMonth months =
        (List.range months).map (fun k =>
          { labelMonth := currentMonth - months + k,
            windowStart := currentMonth - months + k,
            windowEnd := currentMonth - months + k + 1,
            metrics := metricsFor (currentMonth - months + k)
              (currentMonth - months + k + 1) }) := by
  intro months
  induction months with
  | zero => rfl
  | succ n ih =>
    rw [generate_defect_trend_report, countdown, List.map_cons]
    rw [show (countdown n).map _ = generate_defect_trend_report metricsFor currentMonth n
      from rfl, ih]
    rw [List.range_succ_eq_map, List.map_cons, List.map_map]
    congr 1
    · congr 1 <;> (push_cast; ring)
    · apply List.map_congr_left
      intro k _
      simp only [Function.comp]
      congr 1 <;> (push_cast; ring)

end GLA

/-- C6: the monthly trend returns exactly `months` points, one per
calendar month, oldest first; the point of index `k` (counting from the
oldest) covers the month window
`[currentMonth - months + k, currentMonth - months + k + 1)` and is
labeled with that window's start month, so consecutive labels increase by
exactly one calendar month. -/
theorem GLA.C6_generate_defect_trend_report
    (metricsFor : Int → Int → GLA.EscapeMetrics) (currentMonth : Int)
    (months : Nat) (hm : 1 ≤ months) :
    (GLA.generate_defect_trend_report metricsFor currentMonth months).length =
      months ∧
    (∀ k (hk : k <
        (GLA.generate_defect_trend_report metricsFor currentMonth months).length),
      ((GLA.generate_defect_trend_report metricsFor currentMonth months).get
          ⟨k, hk⟩) =
        { labelMonth := currentMonth - months + k,
          windowStart := currentMonth - months + k,
          windowEnd := currentMonth - months + k + 1,
          metrics := metricsFor (currentMonth - months + k)
            (currentMonth - months + k + 1) }) ∧
    List.Chain' (fun a b => GLA.TrendPoint.labelMonth b = GLA.TrendPoint.labelMonth a + 1)
      (GLA.generate_defect_trend_report metricsFor currentMonth months) := by
  rw [GLA.generate_defect_trend_closed]
  refine ⟨by simp, ?_, ?_⟩
  · intro k hk
    simp only [List.get_eq_getElem, List.getElem_map, List.getElem_range]
  · rw [List.chain'_map]
    cases months with
    | zero => simp
    | succ n =>
      rw [List.chain'_range_succ]
      intro m hm2
      simp only
      push_cast
      ring

/-- Witness for C6: for `months = 2` the trend has exactly two points. -/
theorem GLA.C6_generate_defect_trend_report_witness :
    (GLA.generate_defect_trend_report (fun _ _ => ⟨0, 0, 0, 0, 0⟩) 24289 2).length = 2 :=
  (GLA.C6_generate_defect_trend_report (fun _ _ => ⟨0, 0, 0, 0, 0⟩) 24289 2
    (by decide)).1

namespace GLA

/-- The head of the sorted `add`-event list is an `add` event for this
milestone from the original stream, with minimal timestamp among them. -/
theorem addEventsFor_head (events : List MilestoneEvent) (m : Milestone)
    (first : MilestoneEvent) (rest : List MilestoneEvent)
    (h : addEventsFor events m = first :: rest) :
    first ∈ events ∧ first.action = "add" ∧ first.milestoneId = some m.id ∧
    ∀ e ∈ events, e.action = "add" → e.milestoneId = some m.id →
      first.createdAt ≤ e.createdAt := by
  rw [addEventsFor, sortByTime] at h
  have hperm := List.perm_insertionSort eventLE
    (events.filter (fun e => e.action == "add" && e.milestoneId == some m.id))
  have hsorted := List.sorted_insertionSort eventLE
    (events.filter (fun e => e.action == "add" && e.milestoneId == some m.id))
  rw [h] at hperm hsorted
  have hfm : first ∈ events.filter
      (fun e => e.action == "add" && e.milestoneId == some m.id) :=
    hperm.subset (List.mem_cons_self first rest)
  have hfm' := List.mem_filter.1 hfm
  have hprops : first.action = "add" ∧ first.milestoneId = some m.id := by
    have := hfm'.2
    simp only [Bool.and_eq_true, beq_iff_eq] at this
    exact this
  refine ⟨hfm'.1, hprops.1, hprops.2, ?_⟩
  intro e he hea hem
  have hef : e ∈ events.filter
      (fun e => e.action == "add" && e.milestoneId == some m.id) := by
    rw [List.mem_filter]
    exact ⟨he, by simp [hea, hem]⟩
  have : e ∈ first :: rest := hperm.mem_iff.2 hef
  rcases List.mem_cons.1 this with rfl | hr
  · exact le_refl _
  · exact List.rel_of_sorted_cons hsorted e hr

/-- Inversion of `lagRowForIssue`: a produced row pins down every value
the loop computed. -/
theorem lagRowForIssue_some (mmap : List (Nat × Milestone))
    (events : Issue → List MilestoneEvent) (issue : Issue) (row : LagRow)
    (h : lagRowForIssue mmap events issue = some row) :
    ∃ mid m due first rest,
      issue.milestoneId = some mid ∧ lookupM mmap mid = some m ∧
      m.dueDate = some due ∧ addEventsFor (events issue) m = first :: rest ∧
      0 ≤ Int.fdiv (due - first.createdAt) 86400 ∧
      row = { projectId := issue.projectId, issue_iid := issue.iid,
              issue_type := issueTypeOf issue.labels,
              milestone_due_date := due,
              milestone_assigned_date := first.createdAt,
              lag_days := Int.fdiv (due - first.createdAt) 86400 } := by
  cases hmid : issue.milestoneId with
  | none => simp [lagRowForIssue, hmid] at h
  | some mid =>
    cases hm : lookupM mmap mid with
    | none => simp [lagRowForIssue, hmid, hm] at h
    | some m =>
      cases hdue : m.dueDate with
      | none => simp [lagRowForIssue, hmid, hm, hdue] at h
      | some due =>
        cases hadd : addEventsFor (events issue) m with
        | nil => simp [lagRowForIssue, hmid, hm, hdue, hadd] at h
        | cons first rest =>
          by_cases hlag : 0 ≤ Int.fdiv (due - first.createdAt) 86400
          · simp only [lagRowForIssue, hmid, hm, hdue, hadd, if_pos hlag] at h
            exact ⟨mid, m, due, first, rest, rfl, hm, hdue, hadd, hlag,
              (Option.some.inj h).symm⟩
          · simp [lagRowForIssue, hmid, hm, hdue, hadd, if_neg hlag] at h

end GLA

/-- C4: every row of the triage-to-milestone report has
`lag_days = floor((due - t) / 86400)` where `t` is the timestamp of the
earliest `add` milestone event assigning the issue to its milestone, and
`lag_days >= 0`; an issue whose earliest such assignment is after the due
date (negative lag) produces no row at all. -/
theorem GLA.C4_generate_triage_to_milestone_lag (mmap : List (Nat × GLA.Milestone))
    (events : GLA.Issue → List GLA.MilestoneEvent) (issues : List GLA.Issue) :
    (∀ row ∈ GLA.generate_triage_to_milestone_rows mmap events issues,
      0 ≤ GLA.LagRow.lag_days row ∧
      GLA.LagRow.lag_days row =
        Int.fdiv (GLA.LagRow.milestone_due_date row -
          GLA.LagRow.milestone_assigned_date row) 86400 ∧
      ∃ issue ∈ issues, ∃ mid m,
        GLA.Issue.milestoneId issue = some mid ∧
        GLA.lookupM mmap mid = some m ∧
        GLA.Milestone.dueDate m = some (GLA.LagRow.milestone_due_date row) ∧
        (∃ e ∈ events issue, GLA.MilestoneEvent.action e = "add" ∧
          GLA.MilestoneEvent.milestoneId e = some (GLA.Milestone.id m) ∧
          GLA.MilestoneEvent.createdAt e = GLA.LagRow.milestone_assigned_date row) ∧
        (∀ e ∈ events issue, GLA.MilestoneEvent.action e = "add" →
          GLA.MilestoneEvent.milestoneId e = some (GLA.Milestone.id m) →
          GLA.LagRow.milestone_assigned_date row ≤ GLA.MilestoneEvent.createdAt e)) ∧
    (∀ (issue : GLA.Issue) (mid : Nat) (m : GLA.Milestone) (due : Int)
        (first : GLA.MilestoneEvent) (rest : List GLA.MilestoneEvent),
      GLA.Issue.milestoneId issue = some mid →
      GLA.lookupM mmap mid = some m →
      GLA.Milestone.dueDate m = some due →
      GLA.addEventsFor (events issue) m = first :: rest →
      due < GLA.MilestoneEvent.createdAt first →
      GLA.lagRowForIssue mmap events issue = none) := by
  constructor
  · intro row hrow
    rw [GLA.generate_triage_to_milestone_rows, List.mem_filterMap] at hrow
    obtain ⟨issue, hissue, hsome⟩ := hrow
    obtain ⟨mid, m, due, first, rest, hmid, hm, hdue, hadd, hlag, hroweq⟩ :=
      GLA.lagRowForIssue_some mmap events issue row hsome
    obtain ⟨hfmem, hfact, hfmil, hfmin⟩ :=
      GLA.addEventsFor_head (events issue) m first rest hadd
    subst hroweq
    refine ⟨hlag, rfl, issue, hissue, mid, m, hmid, hm, hdue,
      ⟨first, hfmem, hfact, hfmil, rfl⟩, hfmin⟩
  · intro issue mid m due first rest hmid hm hdue hadd hlt
    have hlag : ¬ 0 ≤ Int.fdiv (due - first.createdAt) 86400 := by
      rw [Int.fdiv_eq_ediv _ (by norm_num)]
      omega
    simp [GLA.lagRowForIssue, hmid, hm, hdue, hadd, if_neg hlag]

/-- Witness for C4: a milestone due on day 20 whose issue is first
assigned on day 25 (after the due date) yields no row. -/
theorem GLA.C4_generate_triage_to_milestone_lag_witness :
    GLA.lagRowForIssue [(1, ⟨1, "M", some (86400 * 20), none, none⟩)]
      (fun _ => [⟨"add", some 1, 86400 * 25⟩])
      { GLA.mkIssueTitled "x" with milestoneId := some 1 } = none :=
  (GLA.C4_generate_triage_to_milestone_lag
    [(1, ⟨1, "M", some (86400 * 20), none, none⟩)]
    (fun _ => [⟨"add", some 1, 86400 * 25⟩]) []).2
    { GLA.mkIssueTitled "x" with milestoneId := some 1 } 1
    ⟨1, "M", some (86400 * 20), none, none⟩ (86400 * 20)
    ⟨"add", some 1, 86400 * 25⟩ [] (by decide) (by decide) (by decide)
    (by decide) (by decide)

/-- C5 counterexample: both dates present and parseable but the due date
(2024-01-05) precedes the start date (2024-01-10); the code's
`if due_date >= start_date` guard is skipped and no exception is raised,
so the initial empty `burndown_data` is returned — not the 2-point
fallback the claim requires. -/
theorem GLA.C5_counterexample :
    GLA.computeBurndown (some "2024-01-10") (some "2024-01-05") [] =
      { labels := [], ideal := [], actual := [] } := by decide

/-- C5 (amended): when the start or due date is missing (or empty), the
burndown falls back to the 2-point `['Start','Current']` chart with ideal
`[total, 0]` and actual `[total, openCount]`; when both are present but
date parsing fails, it falls back to the 2-point `['Start','End']` chart
with the same series; but when both dates parse and the due date precedes
the start date, it returns empty label/ideal/actual series. -/
theorem GLA.C5_computeBurndown_fallbacks (startStr dueStr : Option String)
    (issues : List GLA.Issue) :
    ((startStr = none ∨ dueStr = none ∨ startStr = some "" ∨ dueStr = some "") →
      GLA.computeBurndown startStr dueStr issues =
        { labels := [GLA.BurndownLabel.text "Start", GLA.BurndownLabel.text "Current"],
          ideal := [(issues.length : ℚ), 0],
          actual := [(issues.length : Int),
            ((issues.length -
              (issues.filter (fun i => GLA.Issue.state i == "closed")).length : Nat) :
                Int)] }) ∧
    (∀ ss ds, startStr = some ss → dueStr = some ds → ss ≠ "" → ds ≠ "" →
      (GLA.parseDate ss = none ∨ GLA.parseDate ds = none) →
      GLA.computeBurndown startStr dueStr issues =
        { labels := [GLA.BurndownLabel.text "Start", GLA.BurndownLabel.text "End"],
          ideal := [(issues.length : ℚ), 0],
          actual := [(issues.length : Int),
            ((issues.length -
              (issues.filter (fun i => GLA.Issue.state i == "closed")).length : Nat) :
                Int)] }) ∧
    (∀ ss ds sy sm sd dy dm dd, startStr = some ss → dueStr = some ds →
      ss ≠ "" → ds ≠ "" →
      GLA.parseDate ss = some (sy, sm, sd) → GLA.parseDate ds = some (dy, dm, dd) →
      GLA.toEpochDay dy dm dd < GLA.toEpochDay sy sm sd →
      GLA.computeBurndown startStr dueStr issues =
        { labels := [], ideal := [], actual := [] }) := by
  refine ⟨?_, ?_, ?_⟩
  · rintro (rfl | rfl | rfl | rfl)
    · cases dueStr <;> rfl
    · cases startStr with
      | none => rfl
      | some ss => simp [GLA.computeBurndown]
    · cases dueStr with
      | none => rfl
      | some ds => simp [GLA.computeBurndown]
    · cases startStr with
      | none => rfl
      | some ss => simp [GLA.computeBurndown]
  · rintro ss ds rfl rfl hss hds hparse
    simp only [GLA.computeBurndown, if_pos (And.intro hss hds)]
    rcases hparse with hp | hp
    · rw [hp]
    · cases hq : GLA.parseDate ss with
      | none => first | rfl | simp
      | some v =>
        obtain ⟨sy, sm, sd⟩ := v
        rw [hp]
  · rintro ss ds sy sm sd dy dm dd rfl rfl hss hds hps hpd hlt
    simp only [GLA.computeBurndown, if_pos (And.intro hss hds), hps, hpd]
    rw [if_neg (by omega)]

/-- Witness for C5 (amended): an unparseable start date ("2024-13-01",
month 13) with one open issue produces the `['Start','End']` fallback. -/
theorem GLA.C5_computeBurndown_fallbacks_witness :
    GLA.computeBurndown (some "2024-13-01") (some "2024-01-05")
      [GLA.mkIssueTitled "x"] =
      { labels := [GLA.BurndownLabel.text "Start", GLA.BurndownLabel.text "End"],
        ideal := [1, 0], actual := [1, 1] } := by
  have h :=
    (GLA.C5_computeBurndown_fallbacks (some "2024-13-01") (some "2024-01-05")
      [GLA.mkIssueTitled "x"]).2.1 "2024-13-01" "2024-01-05" rfl rfl
      (by decide) (by decide) (Or.inl (by decide))
  rw [h]
  decide

namespace GLA

/-- Membership in an insertion. -/
theorem mem_insertBin (x b : Int) : ∀ l : List Int,
    b ∈ insertBin x l ↔ b = x ∨ b ∈ l := by
  intro l
  induction l with
  | nil => simp [insertBin]
  | cons y ys ih =>
    by_cases h1 : x < y
    · simp [insertBin, h1]
    · by_cases h2 : x = y
      · subst h2
        simp [insertBin, h1]
      · simp [insertBin, h1, h2, ih]
        tauto

/-- Insertion keeps the bin list strictly ascending. -/
theorem sorted_insertBin (x : Int) : ∀ l : List Int,
    List.Sorted (· < ·) l → List.Sorted (· < ·) (insertBin x l) := by
  intro l
  induction l with
  | nil => simp [insertBin]
  | cons y ys ih =>
    intro h
    rw [List.sorted_cons] at h
    by_cases h1 : x < y
    · rw [show insertBin x (y :: ys) = x :: y :: ys from by simp [insertBin, h1]]
      rw [List.sorted_cons]
      refine ⟨?_, List.sorted_cons.2 h⟩
      intro b hb
      rcases List.mem_cons.1 hb with rfl | hb'
      · exact h1
      · exact lt_trans h1 (h.1 b hb')
    · by_cases h2 : x = y
      · rw [show insertBin x (y :: ys) = y :: ys from by simp [insertBin, h1, h2]]
        exact List.sorted_cons.2 h
      · rw [show insertBin x (y :: ys) = y :: insertBin x ys from by
          simp [insertBin, h1, h2]]
        rw [List.sorted_cons]
        refine ⟨?_, ih h.2⟩
        intro b hb
        rcases (mem_insertBin x b ys).1 hb with rfl | hb'
        · omega
        · exact h.1 b hb'

/-- The bin index of the resampled series is strictly ascending. -/
theorem sorted_sortedBins (xs : List Int) :
    List.Sorted (· < ·) (sortedBins xs) := by
  induction xs with
  | nil => simp [sortedBins]
  | cons x xs ih => exact sorted_insertBin x _ ih

/-- The bin index contains exactly the bins of the data. -/
theorem mem_sortedBins (b : Int) (xs : List Int) :
    b ∈ sortedBins xs ↔ b ∈ xs := by
  induction xs with
  | nil => simp [sortedBins]
  | cons x xs ih =>
    rw [show sortedBins (x :: xs) = insertBin x (sortedBins xs) from rfl]
    rw [mem_insertBin]
    simp [ih]

end GLA

/-- C3 counterexample: an issue created before the window (day `-3`) but
closed inside it (day `10`) is inside the claim's selection ("issues
closed within the window") yet outside the code's query (which filters by
`created_after`/`created_before` with `state='closed'`): the code reports
"No closed issues found" while the claim's reading yields a one-week
series. -/
theorem GLA.C3_counterexample :
    GLA.generate_issue_tat_trend_report [GLA.c3Issue] 0 8640000 =
      (none, some "No closed issues found in the selected period.") ∧
    (GLA.tatTrendClaim [GLA.c3Issue] 0 8640000).map Prod.fst = [-3] := by decide

/-- C3 (amended): the TAT trend considers exactly the closed-state issues
whose `created_at` lies within `[today - monthsBack, today]`; for each
such issue with both timestamps it computes `tat = (closed - created) /
86400` days, groups per-issue TAT by the pandas `W-Mon` week (the bin
closing on the first Monday on or after `created_at`), averages within
each bin, rounds to two decimals, drops empty bins, and emits the
`(weekMonday, mean)` pairs in strictly increasing chronological order;
empty selections yield the "no data" messages instead. -/
theorem GLA.C3_generate_issue_tat_trend_report (snapshot : List GLA.Issue)
    (startTs endTs : Int) :
    (GLA.tatQueryFilter snapshot startTs endTs = [] →
      GLA.generate_issue_tat_trend_report snapshot startTs endTs =
        (none, some "No closed issues found in the selected period.")) ∧
    (GLA.tatQueryFilter snapshot startTs endTs ≠ [] →
      GLA.tatRecords (GLA.tatQueryFilter snapshot startTs endTs) = [] →
      GLA.generate_issue_tat_trend_report snapshot startTs endTs =
        (none, some "No issues with valid created/closed dates found.")) ∧
    (GLA.tatRecords (GLA.tatQueryFilter snapshot startTs endTs) ≠ [] →
      ∃ chart,
        GLA.generate_issue_tat_trend_report snapshot startTs endTs =
          (some chart, none) ∧
        List.Sorted (· < ·) (chart.map Prod.fst) ∧
        (∀ b : Int, b ∈ chart.map Prod.fst ↔
          ∃ r ∈ GLA.tatRecords (GLA.tatQueryFilter snapshot startTs endTs),
            GLA.weekBinOf r.1 = b) ∧
        (∀ p ∈ chart, p.2 = GLA.round2 (GLA.binMean
          (GLA.tatRecords (GLA.tatQueryFilter snapshot startTs endTs)) p.1))) := by
  refine ⟨?_, ?_, ?_⟩
  · intro h
    simp [GLA.generate_issue_tat_trend_report, GLA.tatTrendBody, h]
  · intro h1 h2
    simp [GLA.generate_issue_tat_trend_report, GLA.tatTrendBody, h1, h2]
  · intro h
    have hne : GLA.tatQueryFilter snapshot startTs endTs ≠ [] := by
      intro hh
      exact h (by rw [hh]; rfl)
    refine ⟨(GLA.sortedBins ((GLA.tatRecords
        (GLA.tatQueryFilter snapshot startTs endTs)).map
          (fun r => GLA.weekBinOf r.1))).map
      (fun b => (b, GLA.round2 (GLA.binMean
        (GLA.tatRecords (GLA.tatQueryFilter snapshot startTs endTs)) b))),
      ?_, ?_, ?_, ?_⟩
    · simp [GLA.generate_issue_tat_trend_report, GLA.tatTrendBody, hne, h]
    · have hmap : ((GLA.sortedBins ((GLA.tatRecords
          (GLA.tatQueryFilter snapshot startTs endTs)).map
            (fun r => GLA.weekBinOf r.1))).map
          (fun b => (b, GLA.round2 (GLA.binMean
            (GLA.tatRecords (GLA.tatQueryFilter snapshot startTs endTs)) b)))).map
            Prod.fst =
          GLA.sortedBins ((GLA.tatRecords
            (GLA.tatQueryFilter snapshot startTs endTs)).map
              (fun r => GLA.weekBinOf r.1)) := by
        rw [List.map_map]
        exact List.map_id _
      rw [hmap]
      exact GLA.sorted_sortedBins _
    · intro b
      rw [List.map_map]
      have : (Prod.fst ∘ fun b => (b, GLA.round2 (GLA.binMean
          (GLA.tatRecords (GLA.tatQueryFilter snapshot startTs endTs)) b))) =
          id := rfl
      rw [this, List.map_id, GLA.mem_sortedBins, List.mem_map]
    · intro p hp
      obtain ⟨b, _, rfl⟩ := List.mem_map.1 hp
      rfl

/-- Witness for C3 (amended): the empty snapshot hits the empty-selection
branch and yields the "No closed issues found" message. -/
theorem GLA.C3_generate_issue_tat_trend_report_witness :
    GLA.generate_issue_tat_trend_report [] 0 8640000 =
      (none, some "No closed issues found in the selected period.") :=
  (GLA.C3_generate_issue_tat_trend_report [] 0 8640000).1 (by decide)

/-- C9 counterexample: an upstream error during the issue fetch is
swallowed by `get_all_issues` (logged, empty list returned), so the TAT
entry point reports the empty-result message "No closed issues found in
the selected period." — indistinguishable from a genuinely empty
snapshot — rather than a distinct generic internal-error message. -/
theorem GLA.C9_counterexample :
    (GLA.runTatTrendReport [Except.error "connection reset"] 0 8640000).1 =
      (none, some "No closed issues found in the selected period.") ∧
    (GLA.runTatTrendReport [Except.error "connection reset"] 0 8640000).1 =
      (GLA.runTatTrendReport [Except.ok []] 0 8640000).1 := by decide

/-- C9 (amended): when the Issue Source errors during the issue fetch,
`get_all_issues` catches the exception, logs it and returns an empty
list; the aggregation entry point then surfaces the empty-result message
"No closed issues found in the selected period." — the same output as for
an empty snapshot, with no distinct internal-error message — and consumes
exactly one service response (no retry). -/
theorem GLA.C9_upstream_error_surfacing (msg : String)
    (rest : List (Except String (List GLA.Issue))) (startTs endTs : Int) :
    GLA.runTatTrendReport (Except.error msg :: rest) startTs endTs =
      ((none, some "No closed issues found in the selected period."), rest) ∧
    GLA.get_all_issues (Except.error msg) = [] ∧
    (GLA.runTatTrendReport (Except.error msg :: rest) startTs endTs).1 =
      GLA.tatTrendBody (GLA.tatQueryFilter (GLA.get_all_issues (Except.ok []))
        startTs endTs) := by
  exact ⟨rfl, rfl, rfl⟩
